/-
  Verification of the GOAP repository (regressive A* planner with effect
  references, priority-queue A* skeleton, and the sense/plan/act automaton).

  Shallow embedding of:
    src/src/regressive_planner.py  (EffectReference, RegActionValidator,
      RegAction, RegressiveGOAPAStarNode, RegressiveGOAPAStarSearch,
      RegressivePlanner)
    src/src/priority_queue.py      (PriorityQueue, AStarAlgorithm.find_path)
    src/src/goap.py                (Automaton state machine wiring)
    src/goap/code/src/ref_goap_extension.py (Automaton.act effect write-back)

  Python-faithfulness notes used throughout:
  - dicts preserve insertion order; updating an existing key keeps its
    position, new keys are appended (modelled by pset on association lists);
  - Python `==` identifies True with 1 and False with 0 (modelled by pyEq);
  - heapq is modelled by the exact CPython _siftdown/_siftup algorithms,
    comparing only scores (PriorityElement.__lt__ compares .score alone);
  - RegressiveGOAPAStarNode.__hash__ is id(self), so every node created by
    apply_action is a fresh dictionary/set key: in find_path the membership
    tests `neighbour in rejects` / `neighbour in candidates` are always
    False for these nodes and `g_scores.get(neighbour, max)` always takes
    the default.  The regressive search loop below is specialised
    accordingly, with fresh integer ids standing for object identity.
  - exceptions are modelled by an Except monad; mutation of the planner
    environment is modelled by explicitly threading a PEnv value.
-/
import Mathlib

namespace Goap

/-- Atomic Python values used by the planner: booleans, integers, strings,
the Ellipsis singleton (the service sentinel), and the NOT_DEFINED
sentinel of regressive_planner.py. -/
inductive PyVal where
  | pybool (b : Bool)
  | pyint (n : Int)
  | pystr (s : String)
  | ellipsis
  | notDefined
deriving DecidableEq, Repr

/-- Python `==` on the modelled atoms: True == 1 and False == 0; the
Ellipsis and NOT_DEFINED singletons are equal only to themselves. -/
def pyEq : PyVal → PyVal → Bool
  | .pybool a, .pybool b => a == b
  | .pyint a, .pyint b => a == b
  | .pybool a, .pyint b => (if a then (1 : Int) else 0) == b
  | .pyint a, .pybool b => a == (if b then (1 : Int) else 0)
  | .pystr a, .pystr b => a == b
  | .ellipsis, .ellipsis => true
  | .notDefined, .notDefined => true
  | _, _ => false

/-- Exceptions raised by the modelled code paths, plus a fuelExhausted
marker used only when the model's recursion fuel runs out (no Python
counterpart). -/
inductive PyErr where
  | keyError
  | valueError
  | typeError
  | attributeError
  | pathNotFound
  | planFailed
  | noTransition
  | fuelExhausted
deriving DecidableEq, Repr

/-- An insertion-ordered dictionary, as in Python 3.7+. -/
abbrev PyDict (κ α : Type) := List (κ × α)

/-- Dictionary lookup (d[k] / d.get(k)). -/
def pget {κ α : Type} [DecidableEq κ] : PyDict κ α → κ → Option α
  | [], _ => none
  | (k', v) :: rest, k => if k' = k then some v else pget rest k

/-- Dictionary lookup with default (d.get(k, dflt)). -/
def pgetD {κ α : Type} [DecidableEq κ] (d : PyDict κ α) (k : κ) (dflt : α) : α :=
  (pget d k).getD dflt

/-- Dictionary write d[k] = v: an existing key keeps its position, a new
key is appended, matching CPython dict semantics. -/
def pset {κ α : Type} [DecidableEq κ] : PyDict κ α → κ → α → PyDict κ α
  | [], k, v => [(k, v)]
  | (k', v') :: rest, k, v =>
    if k' = k then (k, v) :: rest else (k', v') :: pset rest k v

/-- The keys of a dictionary in iteration order. -/
def pkeys {κ α : Type} (d : PyDict κ α) : List κ := d.map Prod.fst

theorem pget_pset_self {κ α : Type} [DecidableEq κ] (d : PyDict κ α) (k : κ) (v : α) :
    pget (pset d k v) k = some v := by
  induction d with
  | nil => simp [pset, pget]
  | cons hd tl ih =>
    by_cases h : hd.1 = k
    · simp [pset, pget, h]
    · simp [pset, pget, h, ih]

theorem pget_pset_ne {κ α : Type} [DecidableEq κ] (d : PyDict κ α) (k k' : κ) (v : α)
    (h : k' ≠ k) : pget (pset d k v) k' = pget d k' := by
  induction d with
  | nil => simp [pset, pget, h.symm]
  | cons hd tl ih =>
    by_cases hk : hd.1 = k
    · subst hk
      simp [pset, pget, h.symm]
    · by_cases hk' : hd.1 = k'
      · simp [pset, pget, hk, hk', h]
      · simp [pset, pget, hk, hk', ih]

/-! ## Precondition values

Precondition dictionary values are either plain atoms (including, for an
unvalidated declaration, the Ellipsis atom) or EffectReference markers
(regressive_planner.py lines 20-29).  Effects are plain atoms where the
service sentinel is the Ellipsis atom itself. -/

/-- A precondition value: a literal atom or an EffectReference(name). -/
inductive PreVal where
  | lit (v : PyVal)
  | ref (name : String)
deriving DecidableEq, Repr

/-- A validated action template (class RegAction): class-level effects,
preconditions, cost and precedence.  get_cost ignores its services
argument and returns the class cost; none of the modelled actions
override it or check_procedural_precondition. -/
structure RAction where
  name : String
  effects : PyDict String PyVal
  preconditions : PyDict String PreVal
  cost : Int := 1
  precedence : Int := 0
deriving DecidableEq, Repr

/-- service_names, as derived by RegActionValidator: the effect keys whose
value is the Ellipsis sentinel, in effects order. -/
def RAction.serviceNames (a : RAction) : List String :=
  (a.effects.filter (fun kv => kv.2 = PyVal.ellipsis)).map Prod.fst

/-- Whether an Except value is an error (declaration failure). -/
def isErr {e a : Type} : Except e a → Bool
  | .error _ => true
  | .ok _ => false

/-- RegActionValidator._validate_preconditions: a service-sentinel value
raises ValueError; a reference whose name is not an effect key attempts to
raise ValueError but its message formatting reads value.name, an attribute
EffectReference does not have, so an AttributeError is raised instead. -/
def validatePreconditions (effects : PyDict String PyVal) :
    List (String × PreVal) → Except PyErr Unit
  | [] => .ok ()
  | (_, v) :: rest =>
    match v with
    | .lit x =>
      if x = PyVal.ellipsis then .error .valueError
      else validatePreconditions effects rest
    | .ref rn =>
      if (pget effects rn).isSome then validatePreconditions effects rest
      else .error .attributeError

/-- The raw attributes of an action class declaration, before the
RegActionValidator metaclass runs. -/
structure ActionDecl where
  name : String
  effects : PyDict String PyVal
  preconditions : PyDict String PreVal
  cost : Int := 1
  precedence : Int := 0
deriving DecidableEq, Repr

/-- RegActionValidator.__new__ on a subclass of RegAction: derive
service_names from the effects and validate the preconditions; a
validation failure aborts the class declaration. -/
def declareAction (d : ActionDecl) : Except PyErr RAction :=
  match validatePreconditions d.effects d.preconditions with
  | .error e => .error e
  | .ok _ =>
    .ok { name := d.name, effects := d.effects, preconditions := d.preconditions,
          cost := d.cost, precedence := d.precedence }

/-! ## Regressive nodes -/

/-- RegressiveGOAPAStarNode: current_state, goal_state and the incoming
action (None for the synthetic start node). -/
structure RNode where
  current : PyDict String PyVal
  goal : PyDict String PyVal
  action : Option RAction := none
deriving DecidableEq, Repr

/-- unsatisfied_keys: the goal keys whose current value differs from the
demanded value, in goal-dict order; current_state[k] raises KeyError when
the key is missing (the comprehension indexes, it does not .get). -/
def unsatisfiedKeys (current goal : PyDict String PyVal) :
    Except PyErr (List String) :=
  match goal with
  | [] => .ok []
  | (k, v) :: rest =>
    match pget current k with
    | none => .error .keyError
    | some c =>
      match unsatisfiedKeys current rest with
      | .error e => .error e
      | .ok r => .ok (if pyEq c v then r else k :: r)

/-- The comprehension inside node.services: read current_state at each
service name in order (KeyError when absent). -/
def servicesLoop (cur : PyDict String PyVal) :
    List String → PyDict String PyVal → Except PyErr (PyDict String PyVal)
  | [], acc => .ok acc
  | k :: rest, acc =>
    match pget cur k with
    | some v => servicesLoop cur rest (pset acc k v)
    | none => .error .keyError

/-- node.services: the resolved service bindings, read from the node's
current_state at each of the action's service_names. -/
def nodeServices (n : RNode) : Except PyErr (PyDict String PyVal) :=
  match n.action with
  | none => .error .attributeError
  | some a => servicesLoop n.current a.serviceNames []

/-- get_g_score / compute_cost: neighbour.action.get_cost(neighbour.services);
the services property is evaluated first, then the class cost returned. -/
def stepCost (nb : RNode) : Except PyErr Int :=
  match nodeServices nb with
  | .error e => .error e
  | .ok _ =>
    match nb.action with
    | none => .error .attributeError
    | some a => .ok a.cost

/-- The precedence of a neighbour's incoming action (attrgetter
"action.precedence"). -/
def precOf (n : RNode) : Int :=
  match n.action with
  | none => 0
  | some a => a.precedence

/-- Stable insertion step for descending-precedence ordering. -/
def insertPrecDesc (x : RNode) : List RNode → List RNode
  | [] => [x]
  | y :: ys => if precOf y < precOf x then x :: y :: ys else y :: insertPrecDesc x ys

/-- neighbours.sort(key=action.precedence, reverse=True): a stable
descending sort, as Python's stable sort with reverse=True. -/
def sortPrecDesc (l : List RNode) : List RNode :=
  l.foldl (fun acc x => insertPrecDesc x acc) []

/-! ## CPython heapq on (score, payload) entries

PriorityElement.__lt__ compares only the score, so ties between equal
scores are resolved purely by the heap mechanics; the functions below are
the exact CPython _siftdown / _siftup / heappush / heappop algorithms.
The payload is a natural number (a node id or a graph vertex). -/

/-- One _siftdown bubble-up pass; the fuel is an upper bound on the number
of iterations (pos strictly decreases, so fuel = pos is exact). -/
def siftdownLoop : Nat → Array (Int × Nat) → Nat → Nat → (Int × Nat) →
    Array (Int × Nat)
  | 0, heap, _, pos, newitem => heap.setD pos newitem
  | fuel + 1, heap, startpos, pos, newitem =>
    if pos > startpos then
      let parentpos := (pos - 1) / 2
      let parent := heap.getD parentpos (0, 0)
      if newitem.1 < parent.1 then
        siftdownLoop fuel (heap.setD pos parent) startpos parentpos newitem
      else heap.setD pos newitem
    else heap.setD pos newitem

/-- heapq._siftdown(heap, startpos, pos). -/
def siftdown (heap : Array (Int × Nat)) (startpos pos : Nat) : Array (Int × Nat) :=
  siftdownLoop pos heap startpos pos (heap.getD pos (0, 0))

/-- The descending phase of heapq._siftup: move the smaller child up until
a leaf is reached (on equal children the right one is chosen, exactly as
CPython's "not heap[childpos] < heap[rightpos]" test); returns the heap and
the final position.  Fuel = heap size bounds the iterations. -/
def siftupLoop : Nat → Array (Int × Nat) → Nat → Array (Int × Nat) × Nat
  | 0, heap, pos => (heap, pos)
  | fuel + 1, heap, pos =>
    let endpos := heap.size
    let childpos := 2 * pos + 1
    if childpos < endpos then
      let rightpos := childpos + 1
      let childpos :=
        if rightpos < endpos ∧
            ¬ (heap.getD childpos (0, 0)).1 < (heap.getD rightpos (0, 0)).1 then
          rightpos
        else childpos
      siftupLoop fuel (heap.setD pos (heap.getD childpos (0, 0))) childpos
    else (heap, pos)

/-- heapq._siftup(heap, pos): descend to a leaf, place the item, then
_siftdown back towards pos. -/
def siftup (heap : Array (Int × Nat)) (pos : Nat) : Array (Int × Nat) :=
  let newitem := heap.getD pos (0, 0)
  let hp := siftupLoop heap.size heap pos
  siftdownLoop hp.2 (hp.1.setD hp.2 newitem) pos hp.2 newitem

/-- heapq.heappush. -/
def heappush (heap : Array (Int × Nat)) (item : Int × Nat) : Array (Int × Nat) :=
  siftdown (heap.push item) 0 heap.size

/-- heapq.heappop: returns the popped minimum-score entry and the new heap,
or none on an empty heap. -/
def heappop (heap : Array (Int × Nat)) :
    Option ((Int × Nat) × Array (Int × Nat)) :=
  if heap.size = 0 then none
  else
    let lastelt := heap.getD (heap.size - 1) (0, 0)
    let heap := heap.pop
    if heap.size = 0 then some (lastelt, heap)
    else
      let returnitem := heap.getD 0 (0, 0)
      some (returnitem, siftup (heap.setD 0 lastelt) 0)

/-! ## The regressive search, with the planner environment threaded

PEnv carries the data object identity Python would let find_plan mutate:
the planner's world_state dict and registered action list.  Every embedded
operation passes it along explicitly; the C10 theorem proves it is
returned unchanged. -/

/-- The planner-owned mutable environment: RegressivePlanner._world_state
and RegressivePlanner._actions. -/
structure PEnv where
  world : PyDict String PyVal
  actions : List RAction
deriving Repr

/-- The effect loop of RegressiveGOAPAStarNode.apply_action: a service
effect takes its value from the node's goal_state (KeyError when absent),
an effect key that is also a precondition is seeded from the world state
with NOT_DEFINED as default, and any other effect writes its literal. -/
def effLoopT (env : PEnv) (a : RAction) (n : RNode) :
    List (String × PyVal) → PyDict String PyVal →
    Except PyErr (PyDict String PyVal) × PEnv
  | [], cur => (.ok cur, env)
  | (k, ev) :: rest, cur =>
    if ev = PyVal.ellipsis then
      match pget n.goal k with
      | some gv => effLoopT env a n rest (pset cur k gv)
      | none => (.error .keyError, env)
    else if (pget a.preconditions k).isSome then
      effLoopT env a n rest (pset cur k (pgetD env.world k .notDefined))
    else effLoopT env a n rest (pset cur k ev)

/-- The precondition loop of apply_action: resolve EffectReference values
against the (post-effect-loop) current state, write the demand into the
goal state, and seed the current state from the world state. -/
def preLoopT (env : PEnv) :
    List (String × PreVal) → PyDict String PyVal → PyDict String PyVal →
    Except PyErr (PyDict String PyVal × PyDict String PyVal) × PEnv
  | [], cur, gl => (.ok (cur, gl), env)
  | (k, pv) :: rest, cur, gl =>
    match pv with
    | .ref rn =>
      match pget cur rn with
      | some v =>
        preLoopT env rest (pset cur k (pgetD env.world k .notDefined)) (pset gl k v)
      | none => (.error .keyError, env)
    | .lit v =>
      preLoopT env rest (pset cur k (pgetD env.world k .notDefined)) (pset gl k v)

/-- RegressiveGOAPAStarNode.apply_action(world_state, action). -/
def applyActionT (env : PEnv) (n : RNode) (a : RAction) :
    Except PyErr RNode × PEnv :=
  match effLoopT env a n a.effects n.current with
  | (.error e, env') => (.error e, env')
  | (.ok cur, env') =>
    match preLoopT env' a.preconditions cur n.goal with
    | (.error e, env'') => (.error e, env'')
    | (.ok cg, env'') => (.ok ⟨cg.1, cg.2, some a⟩, env'')

/-- The inner action loop of get_neighbours for one unsatisfied key: skip
actions whose effect value neither equals the demanded value nor is the
service sentinel; apply the rest backwards and evaluate the (default,
always-true) procedural precondition on the neighbour's services. -/
def neighActsLoopT (env : PEnv) (n : RNode) (key : String) (gv : PyVal) :
    List RAction → List RNode → Except PyErr (List RNode) × PEnv
  | [], acc => (.ok acc, env)
  | action :: rest, acc =>
    match pget action.effects key with
    | none => (.error .keyError, env)
    | some ev =>
      if pyEq ev gv = false ∧ ev ≠ PyVal.ellipsis then
        neighActsLoopT env n key gv rest acc
      else
        match applyActionT env n action with
        | (.error e, env') => (.error e, env')
        | (.ok nb, env') =>
          match nodeServices nb with
          | .error e => (.error e, env')
          | .ok _ => neighActsLoopT env' n key gv rest (acc ++ [nb])

/-- The outer key loop of get_neighbours: the effect table was built as a
defaultdict whose default_factory is reset to None, so a goal key produced
by no action raises KeyError on lookup. -/
def neighKeysLoopT (env : PEnv) (table : PyDict String (List RAction)) (n : RNode) :
    List String → List RNode → Except PyErr (List RNode) × PEnv
  | [], acc => (.ok acc, env)
  | key :: rest, acc =>
    match pget n.goal key with
    | none => (.error .keyError, env)
    | some gv =>
      match pget table key with
      | none => (.error .keyError, env)
      | some acts =>
        match neighActsLoopT env n key gv acts acc with
        | (.error e, env') => (.error e, env')
        | (.ok acc', env') => neighKeysLoopT env' table n rest acc'

/-- RegressiveGOAPAStarSearch.get_neighbours. -/
def getNeighboursT (env : PEnv) (table : PyDict String (List RAction)) (n : RNode) :
    Except PyErr (List RNode) × PEnv :=
  match unsatisfiedKeys n.current n.goal with
  | .error e => (.error e, env)
  | .ok unsat =>
    match neighKeysLoopT env table n unsat [] with
    | (.error e, env') => (.error e, env')
    | (.ok nbs, env') => (.ok (sortPrecDesc nbs), env')

/-- The mutable state of one find_path run over regressive nodes.  Nodes
hash by object identity, so every generated neighbour is a fresh key; ids
index the nodes array, parents and g_scores are parallel arrays, and the
f_score of a node is captured in its heap entry when it is added (the
PriorityQueue key function is read once, at add time). -/
structure SearchSt where
  nodes : Array RNode
  g : Array Int
  parents : Array (Option Nat)
  heap : Array (Int × Nat)
deriving Repr

/-- The neighbour-expansion loop body of AStarAlgorithm.find_path,
specialised to identity-hashed regressive nodes: the rejects and
candidates membership tests are always False and g_scores.get always
returns the float_info.max default, so each neighbour is re-parented to
the current node and added to the open set. -/
def expandLoopT (env : PEnv) (curId : Nat) :
    List RNode → SearchSt → Except PyErr SearchSt × PEnv
  | [], st => (.ok st, env)
  | nb :: rest, st =>
    match stepCost nb with
    | .error e => (.error e, env)
    | .ok c =>
      match unsatisfiedKeys nb.current nb.goal with
      | .error e => (.error e, env)
      | .ok us =>
        let tg := st.g.getD curId 0 + c
        let f := tg + us.length
        expandLoopT env curId rest
          { nodes := st.nodes.push nb, g := st.g.push tg,
            parents := st.parents.push (some curId),
            heap := heappush st.heap (f, st.nodes.size) }

/-- The main loop of AStarAlgorithm.find_path: pop the open-set minimum,
return it when is_finished (the node is satisfied), otherwise expand its
neighbours; raise PathNotFoundException when the open set empties. -/
def searchLoopT (table : PyDict String (List RAction)) :
    Nat → PEnv → SearchSt → Except PyErr (Nat × SearchSt) × PEnv
  | 0, env, _ => (.error .fuelExhausted, env)
  | fuel + 1, env, st =>
    match heappop st.heap with
    | none => (.error .pathNotFound, env)
    | some (entry, heap') =>
      let st := { st with heap := heap' }
      let cur := st.nodes.getD entry.2 ⟨[], [], none⟩
      match unsatisfiedKeys cur.current cur.goal with
      | .error e => (.error e, env)
      | .ok [] => (.ok (entry.2, st), env)
      | .ok _ =>
        match getNeighboursT env table cur with
        | (.error e, env') => (.error e, env')
        | (.ok nbs, env') =>
          match expandLoopT env' entry.2 nbs st with
          | (.error e, env'') => (.error e, env'')
          | (.ok st', env'') => searchLoopT table fuel env'' st'

/-- AStarAlgorithm.reconstruct_path: walk the parents mapping back to the
start, producing start-to-goal order; fuel bounds the chain length. -/
def pathTo (st : SearchSt) : Nat → Nat → List RNode
  | 0, id => [st.nodes.getD id ⟨[], [], none⟩]
  | fuel + 1, id =>
    match st.parents.getD id none with
    | none => [st.nodes.getD id ⟨[], [], none⟩]
    | some p => pathTo st fuel p ++ [st.nodes.getD id ⟨[], [], none⟩]

/-- RegPlanStep: the emitted (action, services) pair. -/
structure RegPlanStep where
  action : RAction
  services : PyDict String PyVal
deriving DecidableEq, Repr

/-- RegressivePlanner._create_plan_steps over the reversed path: collect
(action, services) until the synthetic start (action None) is reached. -/
def createPlanSteps : List RNode → Except PyErr (List RegPlanStep)
  | [] => .ok []
  | n :: rest =>
    match n.action with
    | none => .ok []
    | some a =>
      match nodeServices n with
      | .error e => .error e
      | .ok s =>
        match createPlanSteps rest with
        | .error e => .error e
        | .ok r => .ok ({ action := a, services := s } :: r)

/-- RegressivePlanner.__init__ / _create_effect_table: effect key to the
list of declaring actions, in declaration order. -/
def createEffectTable (actions : List RAction) : PyDict String (List RAction) :=
  actions.foldl
    (fun t a =>
      a.effects.foldl (fun t kv => pset t kv.1 ((pget t kv.1).getD [] ++ [a])) t)
    []

/-- The initial-state comprehension of find_plan,
initial_state = curly k: world[k] for k in goal_state: a goal key missing
from the world state raises KeyError. -/
def initLoopT (env : PEnv) :
    List (String × PyVal) → PyDict String PyVal →
    Except PyErr (PyDict String PyVal) × PEnv
  | [], acc => (.ok acc, env)
  | (k, _) :: rest, acc =>
    match pget env.world k with
    | some v => initLoopT env rest (pset acc k v)
    | none => (.error .keyError, env)

/-- RegressivePlanner.find_plan with the environment threaded: build the
start node from the goal keys' world values, run the A* search, reverse
the reconstructed path and emit the plan steps. -/
def findPlanT (fuel : Nat) (env : PEnv) (goalState : PyDict String PyVal) :
    Except PyErr (List RegPlanStep) × PEnv :=
  match initLoopT env goalState [] with
  | (.error e, env') => (.error e, env')
  | (.ok initial, env') =>
    let start : RNode := ⟨initial, goalState, none⟩
    let table := createEffectTable env'.actions
    match unsatisfiedKeys start.current start.goal with
    | .error e => (.error e, env')
    | .ok u0 =>
      let h0 : Int := u0.length
      match searchLoopT table fuel env' ⟨#[start], #[0], #[none], #[(h0, 0)]⟩ with
      | (.error e, env'') => (.error e, env'')
      | (.ok (gid, st), env'') =>
        match createPlanSteps ((pathTo st st.nodes.size gid).reverse) with
        | .error e => (.error e, env'')
        | .ok steps => (.ok steps, env'')

/-- RegressivePlanner.find_plan, result component. -/
def findPlan (fuel : Nat) (world : PyDict String PyVal) (actions : List RAction)
    (goalState : PyDict String PyVal) : Except PyErr (List RegPlanStep) :=
  (findPlanT fuel ⟨world, actions⟩ goalState).1

/-! ## Forward execution of a plan

Automaton.act in ref_goap_extension.py writes every non-Ellipsis effect of
each executed step into the world state (apply_effects_on_exit defaults to
True on RegAction and no modelled action overrides it). -/

/-- One step of Automaton.act: write the action's literal (non-service)
effects into the world state. -/
def applyStepEffects (world : PyDict String PyVal) (a : RAction) :
    PyDict String PyVal :=
  a.effects.foldl
    (fun w kv => if kv.2 = PyVal.ellipsis then w else pset w kv.1 kv.2) world

/-- Execute a plan's literal effects in order (Automaton.act over the
plan steps). -/
def execPlanLit (world : PyDict String PyVal) (steps : List RAction) :
    PyDict String PyVal :=
  steps.foldl applyStepEffects world

/-- AutomatonController.goal_satisfied in ref_goap_extension.py: every
goal key must be present in the world state with an equal value. -/
def goalSatisfiedW (world goal : PyDict String PyVal) : Bool :=
  goal.all (fun kv =>
    match pget world kv.1 with
    | some w => pyEq w kv.2
    | none => false)

/-- Modelled from the spec: the literal preconditions of an action hold in
a world state (section 4.6 re-checks action preconditions before a step
executes; reference-valued preconditions are resolved only at plan time
and are treated as not holding here). -/
def presHold (world : PyDict String PyVal) (a : RAction) : Bool :=
  a.preconditions.all (fun kv =>
    match kv.2 with
    | .lit v =>
      match pget world kv.1 with
      | some w => pyEq w v
      | none => false
    | .ref _ => false)

/-- Modelled from the spec: execute a candidate plan, requiring each
step's literal preconditions to hold before it runs (sections 4.6, 8.2). -/
def specExecPlan (world : PyDict String PyVal) :
    List RAction → Option (PyDict String PyVal)
  | [] => some world
  | a :: rest =>
    if presHold world a then specExecPlan (applyStepEffects world a) rest
    else none

/-- Modelled from the spec: a valid plan for a goal (section 8, invariants
2-3) is an action sequence whose steps execute with their preconditions
satisfied and whose final state satisfies every goal key. -/
def specValidPlan (world goal : PyDict String PyVal) (steps : List RAction) : Bool :=
  match specExecPlan world steps with
  | some w => goalSatisfiedW w goal
  | none => false

/-- The summed cost of a plan: get_cost over its steps (the class cost). -/
def planCost (steps : List RegPlanStep) : Int :=
  (steps.map (fun s => s.action.cost)).sum

/-- The summed cost of a bare action sequence. -/
def actionsCost (steps : List RAction) : Int :=
  (steps.map (fun a => a.cost)).sum

/-! ## Concrete action sets ## -/

/-- reg_examples/example1.py: HauntWithIncantation. -/
def hauntWithIncantation : RAction :=
  { name := "HauntWithIncantation",
    effects := [("is_spooky", .pybool true)],
    preconditions :=
      [("is_undead", .lit (.pybool true)),
       ("chant_incantation", .lit (.pystr "WOOO I'm a ghost"))] }

/-- reg_examples/example1.py and example2.py: BecomeUndead. -/
def becomeUndead : RAction :=
  { name := "BecomeUndead",
    effects := [("is_undead", .pybool true)],
    preconditions := [("is_undead", .lit (.pybool false))] }

/-- reg_examples/example1.py: ChantIncantationEllipsis, a service action. -/
def chantIncantationEllipsis : RAction :=
  { name := "ChantIncantationEllipsis",
    effects := [("chant_incantation", .ellipsis)],
    preconditions := [] }

/-- reg_examples/example2.py: HauntWithMagic. -/
def hauntWithMagic : RAction :=
  { name := "HauntWithMagic",
    effects := [("is_spooky", .pybool true)],
    preconditions :=
      [("is_undead", .lit (.pybool true)),
       ("performs_magic", .lit (.pystr "abracadabra"))] }

/-- reg_examples/example2.py: PerformMagic, whose two preconditions
reference its own performs_magic service effect. -/
def performMagic : RAction :=
  { name := "PerformMagic",
    effects := [("performs_magic", .ellipsis)],
    preconditions :=
      [("chant_incantation", .ref "performs_magic"),
       ("cast_spell", .ref "performs_magic")] }

/-- reg_examples/example2.py: ChantIncantation service action. -/
def chantIncantation : RAction :=
  { name := "ChantIncantation",
    effects := [("chant_incantation", .ellipsis)],
    preconditions := [] }

/-- reg_examples/example2.py: CastSpell service action. -/
def castSpell : RAction :=
  { name := "CastSpell",
    effects := [("cast_spell", .ellipsis)],
    preconditions := [] }

/-- The spooky world shared by example1 and example2. -/
def spookyWorld : PyDict String PyVal :=
  [("is_spooky", .pybool false), ("is_undead", .pybool false)]

/-- Goal of example1 and example2. -/
def spookyGoal : PyDict String PyVal := [("is_spooky", .pybool true)]

/-! ### Clobbering instance (C1)

actA is selected for goal key k1 but also overwrites k2 with a value that
conflicts with the goal; actB produces the demanded k2. -/

/-- An action achieving k1 = 1 whose second effect clobbers k2 with 3. -/
def actClobber : RAction :=
  { name := "ClobberAchieveK1",
    effects := [("k1", .pyint 1), ("k2", .pyint 3)],
    preconditions := [], cost := 2 }

/-- An action achieving exactly the demanded k2 = 2. -/
def actFixK2 : RAction :=
  { name := "AchieveK2",
    effects := [("k2", .pyint 2)],
    preconditions := [], cost := 1 }

/-- World of the clobbering instance. -/
def clobberWorld : PyDict String PyVal := [("k1", .pyint 0), ("k2", .pyint 0)]

/-- Goal of the clobbering instance. -/
def clobberGoal : PyDict String PyVal := [("k1", .pyint 1), ("k2", .pyint 2)]

/-! ### Suboptimality instance (C2)

The bulk action closes four goal keys in one unit-cost step, so
h = number of unsatisfied keys overestimates the remaining cost on the
cheap branch and A* commits to the more expensive branch first. -/

/-- Achieves a = 1 after four auxiliary keys are set (cost 1). -/
def actBulkPre : RAction :=
  { name := "AchieveAAfterBulk",
    effects := [("a", .pyint 1)],
    preconditions :=
      [("b", .lit (.pyint 1)), ("c", .lit (.pyint 1)),
       ("d", .lit (.pyint 1)), ("e", .lit (.pyint 1))], cost := 1 }

/-- Sets all four auxiliary keys in one step (cost 1). -/
def actBulkEff : RAction :=
  { name := "BulkSetter",
    effects :=
      [("b", .pyint 1), ("c", .pyint 1), ("d", .pyint 1), ("e", .pyint 1)],
    preconditions := [], cost := 1 }

/-- Achieves a = 1 via the single auxiliary key f (cost 1). -/
def actViaF : RAction :=
  { name := "AchieveAViaF",
    effects := [("a", .pyint 1)],
    preconditions := [("f", .lit (.pyint 1))], cost := 1 }

/-- Sets f = 1 (cost 2). -/
def actMakeF : RAction :=
  { name := "MakeF",
    effects := [("f", .pyint 1)],
    preconditions := [], cost := 2 }

/-- World of the suboptimality instance. -/
def subOptWorld : PyDict String PyVal :=
  [("a", .pyint 0), ("b", .pyint 0), ("c", .pyint 0),
   ("d", .pyint 0), ("e", .pyint 0), ("f", .pyint 0)]

/-- Goal of the suboptimality instance. -/
def subOptGoal : PyDict String PyVal := [("a", .pyint 1)]

/-- The action list of the suboptimality instance, in declaration order. -/
def subOptActions : List RAction := [actBulkPre, actBulkEff, actViaF, actMakeF]

/-! ### Infeasible-goal instances (C4, C3) -/

/-- An action whose door_open effect never matches the demanded value. -/
def actSlamDoor : RAction :=
  { name := "SlamDoor",
    effects := [("door_open", .pybool false)],
    preconditions := [] }

/-- World containing the door key. -/
def doorWorld : PyDict String PyVal := [("door_open", .pybool false)]

/-- The unreachable goal. -/
def doorGoal : PyDict String PyVal := [("door_open", .pybool true)]

/-- Scenario E world of the spec: only has_key is known. -/
def scenarioEWorld : PyDict String PyVal := [("has_key", .pybool false)]

/-! ## The generic A* skeleton (priority_queue.py)

AStarAlgorithm.find_path over an arbitrary node type with value hashing.
Here nodes are natural numbers (Python ints hash by value), so the open
set, closed set and score dictionaries use structural keys, exactly as a
direct instantiation of AStarAlgorithm over ints behaves.  The
PriorityQueue's tombstone flags are irrelevant on this code path: find_path
never calls remove, and add refuses duplicates, so no heap entry is ever
logically removed before being popped. -/

/-- The four abstract callbacks of AStarAlgorithm. -/
structure AStarParams where
  neighbours : Nat → List Nat
  gStep : Nat → Nat → Int
  hScore : Nat → Int
  finished : Nat → Bool

/-- PriorityQueue: the key-set of its _dict together with the heap of
(score, value) elements. -/
structure PQState where
  dict : List Nat
  heap : Array (Int × Nat)
deriving Repr

/-- The mutable state of one generic find_path run. -/
structure GSearchSt where
  gScores : PyDict Nat Int
  fScores : PyDict Nat Int
  parents : PyDict Nat Nat
  pq : PQState
  rejects : List Nat
deriving Repr

/-- AStarAlgorithm.reconstruct_path: walk parents back to the start,
yielding start-to-node order. -/
def reconstructPathG (parents : PyDict Nat Nat) : Nat → Nat → List Nat
  | 0, node => [node]
  | fuel + 1, node =>
    match pget parents node with
    | none => [node]
    | some p => reconstructPathG parents fuel p ++ [node]

/-- The neighbour loop of find_path: skip closed nodes, compute the
tentative g, skip an open neighbour that is not strictly better, otherwise
update parents and scores and call PriorityQueue.add — which raises
ValueError when the neighbour is already in the open set. -/
def processNeighbours (P : AStarParams) (cur : Nat) :
    List Nat → GSearchSt → Except PyErr GSearchSt
  | [], st => .ok st
  | nb :: rest, st =>
    if nb ∈ st.rejects then processNeighbours P cur rest st
    else
      let tg := (pget st.gScores cur).getD 0 + P.gStep cur nb
      let better : Bool :=
        match pget st.gScores nb with
        | none => true
        | some g => decide (tg < g)
      if nb ∈ st.pq.dict ∧ better = false then processNeighbours P cur rest st
      else
        let f := tg + P.hScore nb
        let st' : GSearchSt :=
          { st with parents := pset st.parents nb cur,
                    gScores := pset st.gScores nb tg,
                    fScores := pset st.fScores nb f }
        if nb ∈ st'.pq.dict then .error .valueError
        else
          processNeighbours P cur rest
            { st' with pq := ⟨st'.pq.dict ++ [nb], heappush st'.pq.heap (f, nb)⟩ }

/-- The main loop of AStarAlgorithm.find_path: while the open set is
non-empty, pop the minimum-f node, return the reconstructed path when
is_finished, otherwise close it and process its neighbours; raise
PathNotFoundException when the open set empties. -/
def findPathLoop (P : AStarParams) : Nat → GSearchSt → Except PyErr (List Nat)
  | 0, _ => .error .fuelExhausted
  | fuel + 1, st =>
    if st.pq.dict.isEmpty then .error .pathNotFound
    else
      match heappop st.pq.heap with
      | none => .error .pathNotFound
      | some (entry, heap') =>
        let cur := entry.2
        let st := { st with pq := ⟨st.pq.dict.erase cur, heap'⟩ }
        if P.finished cur then
          .ok (reconstructPathG st.parents (st.parents.length + 1) cur)
        else
          match processNeighbours P cur (P.neighbours cur)
              { st with rejects := st.rejects ++ [cur] } with
          | .error e => .error e
          | .ok st' => findPathLoop P fuel st'

/-- AStarAlgorithm.find_path(start, end). -/
def findPath (P : AStarParams) (fuel : Nat) (start : Nat) :
    Except PyErr (List Nat) :=
  let f0 := P.hScore start
  findPathLoop P fuel ⟨[(start, 0)], [(start, f0)], [], ⟨[start], #[(f0, start)]⟩, []⟩

/-- A four-vertex instance in which vertex 1 enters the open set from the
start with g = 10 and is then reached again from vertex 2 with the
strictly better g = 3 while still in the open set; the goal vertex 3 is
never reached before that happens. -/
def reparentParams : AStarParams :=
  { neighbours := fun n => if n = 0 then [1, 2] else if n = 2 then [1] else [],
    gStep := fun a b =>
      if a = 0 ∧ b = 1 then 10 else if a = 0 ∧ b = 2 then 1
      else if a = 2 ∧ b = 1 then 2 else 1,
    hScore := fun _ => 0,
    finished := fun n => n = 3 }

/-! ## The Automaton state machine (src/src/goap.py)

The MethodicalMachine wiring: waiting_orders --sense--> sensing,
sensing --plan--> planning, planning --act--> acting,
acting --sense--> sensing (resetting working memory first),
input_goal from waiting/planning/acting back to waiting_orders, and
sensing --wait--> waiting_orders.  Sensors are modelled as constant-value
probes; planCallAttempts instruments each execution of the __plan output,
i.e. each evaluation of the planner call in __set_action_plan.  That call
is written find_plan(self.goal, self.world_state) although
RegressivePlanner.find_plan accepts a single goal_state argument, so each
attempt raises TypeError and the assignment to action_plan never runs. -/

/-- The four automaton states. -/
inductive AState where
  | waitingOrders
  | sensing
  | planning
  | acting
deriving DecidableEq, Repr

/-- A sensor with a fixed reading (Sensor.exec modelled as constant). -/
structure MSensor where
  name : String
  binding : String
  value : PyVal
deriving DecidableEq, Repr

/-- A working-memory fact (class Fact, timestamp omitted). -/
structure MFact where
  binding : String
  data : PyVal
  parentSensor : String
deriving DecidableEq, Repr

/-- The Automaton's owned state. -/
structure Automaton where
  state : AState
  worldState : PyDict String PyVal
  workingMemory : List MFact
  sensors : List MSensor
  goal : PyDict String PyVal
  actionPlan : List RegPlanStep
  planCallAttempts : Nat
  raised : Option PyErr
deriving Repr

/-- Automaton.__sense_environment: append one fact per sensor, then write
every working-memory fact's value into the world state. -/
def senseEnvironment (a : Automaton) : Automaton :=
  let wm := a.workingMemory ++
    a.sensors.map (fun s => ⟨s.binding, s.value, s.name⟩)
  { a with workingMemory := wm,
           worldState := wm.foldl (fun w f => pset w f.binding f.data) a.worldState }

/-- Input sense: defined from waiting_orders (run sensors) and from acting
(reset working memory, then run sensors); other states raise NoTransition. -/
def Automaton.senseI (a : Automaton) : Automaton :=
  match a.state with
  | .waitingOrders => senseEnvironment { a with state := .sensing }
  | .acting => senseEnvironment { a with state := .sensing, workingMemory := [] }
  | _ => { a with raised := some .noTransition }

/-- Input plan: defined only from sensing; the single output __plan calls
__set_action_plan unconditionally, whose find_plan(self.goal,
self.world_state) call raises TypeError (wrong arity), leaving action_plan
unchanged. -/
def Automaton.planI (a : Automaton) : Automaton :=
  match a.state with
  | .sensing =>
    { a with state := .planning,
             planCallAttempts := a.planCallAttempts + 1,
             raised := some .typeError }
  | _ => { a with raised := some .noTransition }

/-- Input act: defined only from planning; __execute_action_plan iterates
the (never populated) action_plan, executing each step; the world state is
not written by this output. -/
def Automaton.actI (a : Automaton) : Automaton :=
  match a.state with
  | .planning => { a with state := .acting }
  | _ => { a with raised := some .noTransition }

/-- Input input_goal: from waiting_orders, planning or acting back to
waiting_orders, recording the goal. -/
def Automaton.inputGoalI (a : Automaton) (g : PyDict String PyVal) : Automaton :=
  match a.state with
  | .waitingOrders => { a with goal := g, state := .waitingOrders }
  | .planning => { a with goal := g, state := .waitingOrders }
  | .acting => { a with goal := g, state := .waitingOrders }
  | _ => { a with raised := some .noTransition }

/-- A fresh automaton over a world, sensors and goal (Automaton.__init__;
the action list plays no role in the modelled transitions). -/
def mkAutomaton (world : PyDict String PyVal) (sensors : List MSensor)
    (goal : PyDict String PyVal) : Automaton :=
  ⟨.waitingOrders, world, [], sensors, goal, [], 0, none⟩

/-- The two constant sensors of the C5 scenario. -/
def tickSensors : List MSensor :=
  [⟨"SenseDir", "tmp_dir_state", .pystr "exist"⟩,
   ⟨"SenseToken", "tmp_dir_content", .pystr "token_not_found"⟩]

/-- Initial world for the C5 scenario. -/
def tickWorld : PyDict String PyVal :=
  [("tmp_dir_state", .pystr "Unknown"), ("tmp_dir_content", .pystr "Unknown")]

/-- Goal for the C5 scenario. -/
def tickGoal : PyDict String PyVal :=
  [("tmp_dir_state", .pystr "exist"), ("tmp_dir_content", .pystr "token_found")]

/-! ## Supporting lemmas

Every threaded search operation returns the planner environment unchanged
(find_plan only reads world_state and the action list) and never produces
a PlanFailed error (the PlanFailed class of nx_utils.py is never raised by
the planner). -/

/-- Transport a not-PlanFailed fact across the re-wrapping of a propagated
error at a different result type. -/
theorem npf_transfer {α β : Type} {x : Except PyErr α} {e : PyErr}
    (h : x = Except.error e) (hx : x ≠ Except.error PyErr.planFailed) :
    (Except.error e : Except PyErr β) ≠ Except.error PyErr.planFailed := by
  intro hh
  injection hh with he
  rw [he] at h
  exact hx h

theorem servicesLoop_npf (cur : PyDict String PyVal) :
    ∀ (l : List String) (acc : PyDict String PyVal),
      servicesLoop cur l acc ≠ Except.error PyErr.planFailed := by
  intro l
  induction l with
  | nil => intro acc; simp [servicesLoop]
  | cons k rest ih =>
    intro acc
    simp only [servicesLoop]
    cases pget cur k with
    | some v => exact ih _
    | none => simp

theorem nodeServices_npf (n : RNode) :
    nodeServices n ≠ Except.error PyErr.planFailed := by
  simp only [nodeServices]
  cases n.action with
  | none => simp
  | some a => exact servicesLoop_npf _ _ _

theorem stepCost_npf (nb : RNode) :
    stepCost nb ≠ Except.error PyErr.planFailed := by
  simp only [stepCost]
  cases h : nodeServices nb with
  | error e => exact npf_transfer h (nodeServices_npf nb)
  | ok s =>
    cases nb.action with
    | none => simp
    | some a => simp

theorem unsatisfiedKeys_npf (cur : PyDict String PyVal) :
    ∀ gl, unsatisfiedKeys cur gl ≠ Except.error PyErr.planFailed := by
  intro gl
  induction gl with
  | nil => simp [unsatisfiedKeys]
  | cons hd rest ih =>
    obtain ⟨k, v⟩ := hd
    simp only [unsatisfiedKeys]
    cases pget cur k with
    | none => simp
    | some c =>
      cases h : unsatisfiedKeys cur rest with
      | error e => exact npf_transfer h ih
      | ok r => simp

theorem effLoopT_good (env : PEnv) (a : RAction) (n : RNode) :
    ∀ (l : List (String × PyVal)) (cur : PyDict String PyVal),
      (effLoopT env a n l cur).2 = env ∧
      (effLoopT env a n l cur).1 ≠ Except.error PyErr.planFailed := by
  intro l
  induction l with
  | nil => intro cur; exact ⟨rfl, by simp [effLoopT]⟩
  | cons hd rest ih =>
    intro cur
    obtain ⟨k, ev⟩ := hd
    simp only [effLoopT]
    split
    · cases pget n.goal k with
      | some gv => exact ih _
      | none => exact ⟨rfl, by simp⟩
    · split
      · exact ih _
      · exact ih _

theorem preLoopT_good (env : PEnv) :
    ∀ (l : List (String × PreVal)) (cur gl : PyDict String PyVal),
      (preLoopT env l cur gl).2 = env ∧
      (preLoopT env l cur gl).1 ≠ Except.error PyErr.planFailed := by
  intro l
  induction l with
  | nil => intro cur gl; exact ⟨rfl, by simp [preLoopT]⟩
  | cons hd rest ih =>
    intro cur gl
    obtain ⟨k, pv⟩ := hd
    simp only [preLoopT]
    cases pv with
    | ref rn =>
      dsimp only
      cases pget cur rn with
      | some v => exact ih _ _
      | none => exact ⟨rfl, by simp⟩
    | lit v => dsimp only; exact ih _ _

theorem applyActionT_good (env : PEnv) (n : RNode) (a : RAction) :
    (applyActionT env n a).2 = env ∧
    (applyActionT env n a).1 ≠ Except.error PyErr.planFailed := by
  simp only [applyActionT]
  rcases h1 : effLoopT env a n a.effects n.current with ⟨r1, e1⟩
  have g1 := effLoopT_good env a n a.effects n.current
  rw [h1] at g1
  dsimp only at g1
  cases r1 with
  | error e => dsimp only; exact ⟨g1.1, npf_transfer rfl g1.2⟩
  | ok cur =>
    dsimp only
    rw [g1.1]
    rcases h2 : preLoopT env a.preconditions cur n.goal with ⟨r2, e2⟩
    have g2 := preLoopT_good env a.preconditions cur n.goal
    rw [h2] at g2
    dsimp only at g2
    cases r2 with
    | error e => dsimp only; exact ⟨g2.1, npf_transfer rfl g2.2⟩
    | ok cg => dsimp only; exact ⟨g2.1, by simp⟩

theorem neighActsLoopT_good (env : PEnv) (n : RNode) (key : String) (gv : PyVal) :
    ∀ (acts : List RAction) (acc : List RNode),
      (neighActsLoopT env n key gv acts acc).2 = env ∧
      (neighActsLoopT env n key gv acts acc).1 ≠ Except.error PyErr.planFailed := by
  intro acts
  induction acts with
  | nil => intro acc; exact ⟨rfl, by simp [neighActsLoopT]⟩
  | cons action rest ih =>
    intro acc
    simp only [neighActsLoopT]
    cases pget action.effects key with
    | none => exact ⟨rfl, by simp⟩
    | some ev =>
      dsimp only
      split
      · exact ih _
      · rcases h1 : applyActionT env n action with ⟨r1, e1⟩
        have g1 := applyActionT_good env n action
        rw [h1] at g1
        dsimp only at g1
        cases r1 with
        | error e => dsimp only; exact ⟨g1.1, npf_transfer rfl g1.2⟩
        | ok nb =>
          dsimp only
          rw [g1.1]
          cases h2 : nodeServices nb with
          | error e => exact ⟨rfl, npf_transfer h2 (nodeServices_npf nb)⟩
          | ok s => exact ih _

theorem neighKeysLoopT_good (env : PEnv) (table : PyDict String (List RAction))
    (n : RNode) :
    ∀ (keys : List String) (acc : List RNode),
      (neighKeysLoopT env table n keys acc).2 = env ∧
      (neighKeysLoopT env table n keys acc).1 ≠ Except.error PyErr.planFailed := by
  intro keys
  induction keys with
  | nil => intro acc; exact ⟨rfl, by simp [neighKeysLoopT]⟩
  | cons key rest ih =>
    intro acc
    simp only [neighKeysLoopT]
    cases pget n.goal key with
    | none => exact ⟨rfl, by simp⟩
    | some gv =>
      dsimp only
      cases pget table key with
      | none => exact ⟨rfl, by simp⟩
      | some acts =>
        dsimp only
        rcases h1 : neighActsLoopT env n key gv acts acc with ⟨r1, e1⟩
        have g1 := neighActsLoopT_good env n key gv acts acc
        rw [h1] at g1
        dsimp only at g1
        cases r1 with
        | error e => dsimp only; exact ⟨g1.1, npf_transfer rfl g1.2⟩
        | ok acc' =>
          dsimp only
          rw [g1.1]
          exact ih _

theorem getNeighboursT_good (env : PEnv) (table : PyDict String (List RAction))
    (n : RNode) :
    (getNeighboursT env table n).2 = env ∧
    (getNeighboursT env table n).1 ≠ Except.error PyErr.planFailed := by
  simp only [getNeighboursT]
  cases h : unsatisfiedKeys n.current n.goal with
  | error e => exact ⟨rfl, npf_transfer h (unsatisfiedKeys_npf n.current n.goal)⟩
  | ok unsat =>
    dsimp only
    rcases h1 : neighKeysLoopT env table n unsat [] with ⟨r1, e1⟩
    have g1 := neighKeysLoopT_good env table n unsat []
    rw [h1] at g1
    dsimp only at g1
    cases r1 with
    | error e => dsimp only; exact ⟨g1.1, npf_transfer rfl g1.2⟩
    | ok nbs => dsimp only; exact ⟨g1.1, by simp⟩

theorem expandLoopT_good (env : PEnv) (curId : Nat) :
    ∀ (nbs : List RNode) (st : SearchSt),
      (expandLoopT env curId nbs st).2 = env ∧
      (expandLoopT env curId nbs st).1 ≠ Except.error PyErr.planFailed := by
  intro nbs
  induction nbs with
  | nil => intro st; exact ⟨rfl, by simp [expandLoopT]⟩
  | cons nb rest ih =>
    intro st
    simp only [expandLoopT]
    cases h1 : stepCost nb with
    | error e => exact ⟨rfl, npf_transfer h1 (stepCost_npf nb)⟩
    | ok c =>
      dsimp only
      cases h2 : unsatisfiedKeys nb.current nb.goal with
      | error e => exact ⟨rfl, npf_transfer h2 (unsatisfiedKeys_npf nb.current nb.goal)⟩
      | ok us => exact ih _

theorem createPlanSteps_npf :
    ∀ path, createPlanSteps path ≠ Except.error PyErr.planFailed := by
  intro path
  induction path with
  | nil => simp [createPlanSteps]
  | cons n rest ih =>
    simp only [createPlanSteps]
    cases n.action with
    | none => simp
    | some a =>
      dsimp only
      cases h1 : nodeServices n with
      | error e => exact npf_transfer h1 (nodeServices_npf n)
      | ok s =>
        dsimp only
        cases h2 : createPlanSteps rest with
        | error e => exact npf_transfer h2 ih
        | ok r => simp

theorem searchLoopT_good (table : PyDict String (List RAction)) :
    ∀ (fuel : Nat) (env : PEnv) (st : SearchSt),
      (searchLoopT table fuel env st).2 = env ∧
      (searchLoopT table fuel env st).1 ≠ Except.error PyErr.planFailed := by
  intro fuel
  induction fuel with
  | zero => intro env st; exact ⟨rfl, by simp [searchLoopT]⟩
  | succ fuel ih =>
    intro env st
    simp only [searchLoopT]
    cases heappop st.heap with
    | none => exact ⟨rfl, by simp⟩
    | some p =>
      obtain ⟨entry, heap'⟩ := p
      dsimp only
      cases h1 : unsatisfiedKeys
          (({ st with heap := heap' } : SearchSt).nodes.getD entry.2
            ⟨[], [], none⟩).current
          (({ st with heap := heap' } : SearchSt).nodes.getD entry.2
            ⟨[], [], none⟩).goal with
      | error e => exact ⟨rfl, npf_transfer h1 (unsatisfiedKeys_npf _ _)⟩
      | ok us =>
        cases us with
        | nil => exact ⟨rfl, by simp⟩
        | cons u us' =>
          dsimp only
          rcases h2 : getNeighboursT env table
              (({ st with heap := heap' } : SearchSt).nodes.getD entry.2
                ⟨[], [], none⟩) with ⟨r2, e2⟩
          have g2 := getNeighboursT_good env table
            (({ st with heap := heap' } : SearchSt).nodes.getD entry.2
              ⟨[], [], none⟩)
          rw [h2] at g2
          dsimp only at g2
          cases r2 with
          | error e => dsimp only; exact ⟨g2.1, npf_transfer rfl g2.2⟩
          | ok nbs =>
            dsimp only
            rw [g2.1]
            rcases h3 : expandLoopT env entry.2 nbs { st with heap := heap' } with ⟨r3, e3⟩
            have g3 := expandLoopT_good env entry.2 nbs { st with heap := heap' }
            rw [h3] at g3
            dsimp only at g3
            cases r3 with
            | error e => dsimp only; exact ⟨g3.1, npf_transfer rfl g3.2⟩
            | ok st' =>
              dsimp only
              rw [g3.1]
              exact ih env st'

theorem initLoopT_good (env : PEnv) :
    ∀ (gl : List (String × PyVal)) (acc : PyDict String PyVal),
      (initLoopT env gl acc).2 = env ∧
      (initLoopT env gl acc).1 ≠ Except.error PyErr.planFailed := by
  intro gl
  induction gl with
  | nil => intro acc; exact ⟨rfl, by simp [initLoopT]⟩
  | cons hd rest ih =>
    intro acc
    obtain ⟨k, v⟩ := hd
    simp only [initLoopT]
    cases pget env.world k with
    | some w => exact ih _
    | none => exact ⟨rfl, by simp⟩

theorem findPlanT_good (fuel : Nat) (env : PEnv) (goalState : PyDict String PyVal) :
    (findPlanT fuel env goalState).2 = env ∧
    (findPlanT fuel env goalState).1 ≠ Except.error PyErr.planFailed := by
  simp only [findPlanT]
  rcases h1 : initLoopT env goalState [] with ⟨r1, e1⟩
  have g1 := initLoopT_good env goalState []
  rw [h1] at g1
  dsimp only at g1
  cases r1 with
  | error e => dsimp only; exact ⟨g1.1, npf_transfer rfl g1.2⟩
  | ok initial =>
    dsimp only
    rw [g1.1]
    cases h2 : unsatisfiedKeys (RNode.mk initial goalState none).current
        (RNode.mk initial goalState none).goal with
    | error e => exact ⟨rfl, npf_transfer h2 (unsatisfiedKeys_npf _ _)⟩
    | ok u0 =>
      dsimp only
      rcases h3 : searchLoopT (createEffectTable env.actions) fuel env
          ⟨#[⟨initial, goalState, none⟩], #[0], #[none],
            #[((u0.length : Int), 0)]⟩ with ⟨r3, e3⟩
      have g3 := searchLoopT_good (createEffectTable env.actions) fuel env
        ⟨#[⟨initial, goalState, none⟩], #[0], #[none], #[((u0.length : Int), 0)]⟩
      rw [h3] at g3
      dsimp only at g3
      cases r3 with
      | error e => dsimp only; exact ⟨g3.1, npf_transfer rfl g3.2⟩
      | ok gs =>
        dsimp only
        rw [g3.1]
        obtain ⟨gid, st⟩ := gs
        cases h4 : createPlanSteps ((pathTo st st.nodes.size gid).reverse) with
        | error e => exact ⟨rfl, npf_transfer h4 (createPlanSteps_npf _)⟩
        | ok steps => exact ⟨rfl, by simp⟩

/-! ## Structural lemmas for the missing-key, shared-key and validation
claims -/

theorem initLoopT_missing (env : PEnv) :
    ∀ (gl : List (String × PyVal)) (acc : PyDict String PyVal),
      (∃ k, k ∈ pkeys gl ∧ pget env.world k = none) →
      initLoopT env gl acc = (.error .keyError, env) := by
  intro gl
  induction gl with
  | nil =>
    intro acc h
    obtain ⟨k, hk, _⟩ := h
    simp [pkeys] at hk
  | cons hd rest ih =>
    intro acc h
    obtain ⟨kk, vv⟩ := hd
    simp only [initLoopT]
    cases hw : pget env.world kk with
    | none => rfl
    | some w =>
      dsimp only
      apply ih
      obtain ⟨k, hk, hkw⟩ := h
      simp only [pkeys, List.map_cons, List.mem_cons] at hk
      rcases hk with heq | hmem
      · rw [heq] at hkw
        rw [hkw] at hw
        exact absurd hw (by simp)
      · exact ⟨k, hmem, hkw⟩

theorem findPlan_missing_key (fuel : Nat) (world : PyDict String PyVal)
    (actions : List RAction) (goalState : PyDict String PyVal)
    (h : ∃ k, k ∈ pkeys goalState ∧ pget world k = none) :
    findPlan fuel world actions goalState = .error .keyError := by
  simp only [findPlan, findPlanT]
  rw [initLoopT_missing ⟨world, actions⟩ goalState [] h]

theorem preLoopT_pget_not_mem (env : PEnv) (k : String) :
    ∀ (l : List (String × PreVal)) (cur gl : PyDict String PyVal)
      (out : PyDict String PyVal × PyDict String PyVal),
      k ∉ pkeys l → (preLoopT env l cur gl).1 = .ok out →
      pget out.1 k = pget cur k ∧ pget out.2 k = pget gl k := by
  intro l
  induction l with
  | nil =>
    intro cur gl out _ hok
    simp only [preLoopT] at hok
    injection hok with hout
    rw [← hout]
    exact ⟨rfl, rfl⟩
  | cons hd rest ih =>
    intro cur gl out hk hok
    obtain ⟨k0, pv⟩ := hd
    simp only [pkeys, List.map_cons, List.mem_cons, not_or] at hk
    obtain ⟨hk1, hk2⟩ := hk
    simp only [preLoopT] at hok
    cases pv with
    | lit v =>
      dsimp only at hok
      have hrec := ih _ _ out hk2 hok
      refine ⟨hrec.1.trans (pget_pset_ne _ _ _ _ hk1), hrec.2.trans (pget_pset_ne _ _ _ _ hk1)⟩
    | ref rn =>
      dsimp only at hok
      cases hr : pget cur rn with
      | none => rw [hr] at hok; simp at hok
      | some v =>
        rw [hr] at hok
        dsimp only at hok
        have hrec := ih _ _ out hk2 hok
        exact ⟨hrec.1.trans (pget_pset_ne _ _ _ _ hk1), hrec.2.trans (pget_pset_ne _ _ _ _ hk1)⟩

theorem preLoopT_pget_mem (env : PEnv) (k : String) (d : PyVal) :
    ∀ (l : List (String × PreVal)) (cur gl : PyDict String PyVal)
      (out : PyDict String PyVal × PyDict String PyVal),
      (pkeys l).Nodup → (k, PreVal.lit d) ∈ l →
      (preLoopT env l cur gl).1 = .ok out →
      pget out.2 k = some d ∧
      pget out.1 k = some (pgetD env.world k PyVal.notDefined) := by
  intro l
  induction l with
  | nil =>
    intro cur gl out _ hmem _
    simp at hmem
  | cons hd rest ih =>
    intro cur gl out hnd hmem hok
    obtain ⟨k0, pv⟩ := hd
    have hnd' := hnd
    simp only [pkeys, List.map_cons, List.nodup_cons] at hnd'
    simp only [preLoopT] at hok
    by_cases hk : k0 = k
    · have hnotin : k ∉ pkeys rest := by rw [← hk]; exact hnd'.1
      have hpv : pv = PreVal.lit d := by
        rcases List.mem_cons.mp hmem with h1 | h1
        · exact (Prod.ext_iff.mp h1.symm).2
        · exact absurd (List.mem_map.mpr ⟨(k, PreVal.lit d), h1, rfl⟩) hnotin
      subst hpv
      dsimp only at hok
      have hpres := preLoopT_pget_not_mem env k rest _ _ out hnotin hok
      constructor
      · rw [hpres.2, hk, pget_pset_self]
      · rw [hpres.1, hk, pget_pset_self]
    · have hmem' : (k, PreVal.lit d) ∈ rest := by
        rcases List.mem_cons.mp hmem with h1 | h1
        · exfalso
          apply hk
          injection h1 with h2 _
          exact h2.symm
        · exact h1
      have hndrest : (pkeys rest).Nodup := hnd'.2
      cases pv with
      | lit v =>
        dsimp only at hok
        exact ih _ _ out hndrest hmem' hok
      | ref rn =>
        dsimp only at hok
        cases hr : pget cur rn with
        | none => rw [hr] at hok; simp at hok
        | some v =>
          rw [hr] at hok
          dsimp only at hok
          exact ih _ _ out hndrest hmem' hok

theorem validate_mem_service_error (effects : PyDict String PyVal) :
    ∀ (l : List (String × PreVal)),
      (∃ k, (k, PreVal.lit PyVal.ellipsis) ∈ l) →
      isErr (validatePreconditions effects l) = true := by
  intro l
  induction l with
  | nil =>
    intro h
    obtain ⟨k, hk⟩ := h
    simp at hk
  | cons hd rest ih =>
    intro h
    obtain ⟨k0, pv⟩ := hd
    simp only [validatePreconditions]
    cases pv with
    | lit x =>
      dsimp only
      by_cases hx : x = PyVal.ellipsis
      · rw [if_pos hx]; rfl
      · rw [if_neg hx]
        apply ih
        obtain ⟨k, hk⟩ := h
        rcases List.mem_cons.mp hk with h1 | h1
        · exfalso
          exact hx (PreVal.lit.inj (Prod.ext_iff.mp h1.symm).2)
        · exact ⟨k, h1⟩
    | ref rn =>
      dsimp only
      by_cases hr : (pget effects rn).isSome
      · rw [if_pos hr]
        apply ih
        obtain ⟨k, hk⟩ := h
        rcases List.mem_cons.mp hk with h1 | h1
        · exact absurd h1 (by simp)
        · exact ⟨k, h1⟩
      · rw [if_neg hr]
        rfl

theorem validate_mem_badref_error (effects : PyDict String PyVal) :
    ∀ (l : List (String × PreVal)),
      (∃ k rn, (k, PreVal.ref rn) ∈ l ∧ pget effects rn = none) →
      isErr (validatePreconditions effects l) = true := by
  intro l
  induction l with
  | nil =>
    intro h
    obtain ⟨k, rn, hk, _⟩ := h
    simp at hk
  | cons hd rest ih =>
    intro h
    obtain ⟨k0, pv⟩ := hd
    simp only [validatePreconditions]
    cases pv with
    | lit x =>
      dsimp only
      by_cases hx : x = PyVal.ellipsis
      · rw [if_pos hx]; rfl
      · rw [if_neg hx]
        apply ih
        obtain ⟨k, rn, hk, hrn⟩ := h
        rcases List.mem_cons.mp hk with h1 | h1
        · exact absurd h1 (by simp)
        · exact ⟨k, rn, h1, hrn⟩
    | ref rn0 =>
      dsimp only
      by_cases hr : (pget effects rn0).isSome
      · rw [if_pos hr]
        apply ih
        obtain ⟨k, rn, hk, hrn⟩ := h
        rcases List.mem_cons.mp hk with h1 | h1
        · exfalso
          have h3 := PreVal.ref.inj (Prod.ext_iff.mp h1.symm).2
          rw [h3, hrn] at hr
          simp at hr
        · exact ⟨k, rn, h1, hrn⟩
      · rw [if_neg hr]
        rfl

theorem declareAction_isError_of_validate (d : ActionDecl)
    (h : isErr (validatePreconditions d.effects d.preconditions) = true) :
    isErr (declareAction d) = true := by
  simp only [declareAction]
  cases hv : validatePreconditions d.effects d.preconditions with
  | error e => rfl
  | ok u => rw [hv] at h; simp [isErr] at h


/-! ## Claim theorems -/

/-- Embedding validation: the modelled find_plan reproduces the plan
documented in reg_examples/example1.py, including the service binding. -/
theorem example1_plan_eval :
    findPlan 50 spookyWorld
      [becomeUndead, hauntWithIncantation, chantIncantationEllipsis] spookyGoal =
      .ok [⟨chantIncantationEllipsis,
              [("chant_incantation", .pystr "WOOO I'm a ghost")]⟩,
           ⟨becomeUndead, []⟩,
           ⟨hauntWithIncantation, []⟩] := rfl

/-- The action set of Scenario B (reg_examples/example2.py), in its
declaration order. -/
def scenarioBActions : List RAction :=
  [becomeUndead, hauntWithMagic, castSpell, chantIncantation, performMagic]

/-- C1: find_plan is not sound.  On the clobbering instance (world k1=0,
k2=0; goal k1=1, k2=2; ClobberAchieveK1 with effects k1=1, k2=3 and cost 2;
AchieveK2 with effect k2=2 and cost 1) the planner returns the plan
[AchieveK2, ClobberAchieveK1]; executing its literal effects in order
leaves k2=3, so the goal key k2=2 is violated, although the same actions
in the opposite order form a valid plan. -/
theorem c1_clobber_plan_eval :
    findPlan 50 clobberWorld [actClobber, actFixK2] clobberGoal =
      .ok [⟨actFixK2, []⟩, ⟨actClobber, []⟩] ∧
    execPlanLit clobberWorld [actFixK2, actClobber] =
      [("k1", PyVal.pyint 1), ("k2", PyVal.pyint 3)] ∧
    goalSatisfiedW (execPlanLit clobberWorld [actFixK2, actClobber])
      clobberGoal = false ∧
    specValidPlan clobberWorld clobberGoal [actClobber, actFixK2] = true :=
  ⟨rfl, rfl, rfl, rfl⟩

/-- C2 counterexample: the returned plan is not cost-minimal.  On the
suboptimality instance find_plan returns [MakeF, AchieveAViaF] of summed
cost 3, while [BulkSetter, AchieveAAfterBulk] is a valid plan of summed
cost 2. -/
theorem c2_suboptimal_counterexample :
    findPlan 50 subOptWorld subOptActions subOptGoal =
      .ok [⟨actMakeF, []⟩, ⟨actViaF, []⟩] ∧
    planCost [⟨actMakeF, []⟩, ⟨actViaF, []⟩] = 3 ∧
    specValidPlan subOptWorld subOptGoal [actBulkEff, actBulkPre] = true ∧
    actionsCost [actBulkEff, actBulkPre] = 2 ∧
    ¬ ((3 : Int) ≤ 2) :=
  ⟨rfl, rfl, rfl, rfl, by decide⟩

/-- The node obtained by applying AchieveAAfterBulk backwards to the start
node of the suboptimality instance. -/
def bulkNode : RNode :=
  ⟨[("a", .pyint 1), ("b", .pyint 0), ("c", .pyint 0),
    ("d", .pyint 0), ("e", .pyint 0)],
   [("a", .pyint 1), ("b", .pyint 1), ("c", .pyint 1),
    ("d", .pyint 1), ("e", .pyint 1)],
   some actBulkPre⟩

/-- C2 amended: the heuristic h(node) = number of unsatisfied keys is not
admissible — one unit-cost action (BulkSetter) closes all four unsatisfied
keys of bulkNode at once, so h = 4 exceeds the remaining cost 1 — and
find_plan is therefore not optimal: it returns a plan of summed cost 3
although a valid plan of summed cost 2 exists. -/
theorem c2_amended_inadmissible_heuristic :
    (applyActionT ⟨subOptWorld, subOptActions⟩
        ⟨[("a", .pyint 0)], subOptGoal, none⟩ actBulkPre).1 = .ok bulkNode ∧
    unsatisfiedKeys bulkNode.current bulkNode.goal = .ok ["b", "c", "d", "e"] ∧
    (applyActionT ⟨subOptWorld, subOptActions⟩ bulkNode actBulkEff).1 =
      .ok ⟨[("a", .pyint 1), ("b", .pyint 1), ("c", .pyint 1),
            ("d", .pyint 1), ("e", .pyint 1)],
           bulkNode.goal, some actBulkEff⟩ ∧
    unsatisfiedKeys
      [("a", PyVal.pyint 1), ("b", PyVal.pyint 1), ("c", PyVal.pyint 1),
       ("d", PyVal.pyint 1), ("e", PyVal.pyint 1)] bulkNode.goal = .ok [] ∧
    actBulkEff.cost = 1 ∧ ¬ ((4 : Int) ≤ 1) ∧
    findPlan 50 subOptWorld subOptActions subOptGoal =
      .ok [⟨actMakeF, []⟩, ⟨actViaF, []⟩] ∧
    planCost [⟨actMakeF, []⟩, ⟨actViaF, []⟩] = 3 ∧
    specValidPlan subOptWorld subOptGoal [actBulkEff, actBulkPre] = true ∧
    actionsCost [actBulkEff, actBulkPre] = 2 :=
  ⟨rfl, rfl, rfl, rfl, rfl, by decide, rfl, rfl, rfl, rfl⟩

/-- C3 counterexample: a goal key absent from the world state makes the
initial-state comprehension of find_plan raise KeyError — the lookup
itself fails, it is not treated as NOT_DEFINED. -/
theorem c3_missing_key_counterexample :
    findPlan 5 scenarioEWorld [] doorGoal = .error .keyError ∧
    (Except.error PyErr.keyError : Except PyErr (List RegPlanStep)) ≠
      Except.error PyErr.pathNotFound :=
  ⟨rfl, by simp⟩

/-- C3 amended: a goal key missing from the world state when find_plan is
called raises KeyError in the initial-state comprehension; only keys that
the regressive search introduces later are defaulted to NOT_DEFINED via
world_state.get, and NOT_DEFINED never compares equal to any other
modelled value. -/
theorem c3_amended_missing_key :
    (∀ (fuel : Nat) (world : PyDict String PyVal) (actions : List RAction)
        (goalState : PyDict String PyVal),
        (∃ k, k ∈ pkeys goalState ∧ pget world k = none) →
        findPlan fuel world actions goalState = .error .keyError) ∧
    (∀ v : PyVal, v ≠ PyVal.notDefined →
        pyEq PyVal.notDefined v = false ∧ pyEq v PyVal.notDefined = false) ∧
    (∀ (world : PyDict String PyVal) (k : String), pget world k = none →
        pgetD world k PyVal.notDefined = PyVal.notDefined) := by
  refine ⟨findPlan_missing_key, ?_, ?_⟩
  · intro v hv
    cases v with
    | notDefined => exact absurd rfl hv
    | pybool b => exact ⟨rfl, rfl⟩
    | pyint n => exact ⟨rfl, rfl⟩
    | pystr s => exact ⟨rfl, rfl⟩
    | ellipsis => exact ⟨rfl, rfl⟩
  · intro world k h
    simp [pgetD, h]

/-- C3 witness: the amended claim at Scenario E with the door_open key
missing from the world, and at the boolean value true. -/
theorem c3_amended_missing_key_witness :
    findPlan 5 scenarioEWorld [] doorGoal = .error .keyError ∧
    pyEq PyVal.notDefined (PyVal.pybool true) = false ∧
    pgetD scenarioEWorld "door_open" PyVal.notDefined = PyVal.notDefined :=
  ⟨c3_amended_missing_key.1 5 scenarioEWorld [] doorGoal
      ⟨"door_open", by decide, rfl⟩,
   (c3_amended_missing_key.2.1 (PyVal.pybool true) (by decide)).1,
   c3_amended_missing_key.2.2 scenarioEWorld "door_open" rfl⟩

/-- C4 counterexample: on an infeasible goal whose key is produced only
with the wrong value, the open set empties and find_plan raises
PathNotFoundException — not the typed error PlanFailed. -/
theorem c4_plan_failed_counterexample :
    findPlan 50 doorWorld [actSlamDoor] doorGoal = .error .pathNotFound ∧
    (Except.error PyErr.pathNotFound : Except PyErr (List RegPlanStep)) ≠
      Except.error PyErr.planFailed :=
  ⟨rfl, by simp⟩

/-- C4 amended: when no action produces the demanded value for a goal key
(but some action produces the key) the open set empties and find_plan
raises PathNotFoundException; when no action produces the key at all the
effect-table lookup raises KeyError; find_plan never raises PlanFailed. -/
theorem c4_amended_failure_typing :
    findPlan 50 doorWorld [actSlamDoor] doorGoal = .error .pathNotFound ∧
    findPlan 50 doorWorld [] doorGoal = .error .keyError ∧
    (∀ (fuel : Nat) (env : PEnv) (goalState : PyDict String PyVal),
        (findPlanT fuel env goalState).1 ≠ .error .planFailed) :=
  ⟨rfl, rfl, fun fuel env gs => (findPlanT_good fuel env gs).2⟩

/-- C5 counterexample: two consecutive sense/plan ticks with identical
constant sensor readings and the same goal leave the world state identical,
yet the second plan input executes the planner call again — the attempt
counter reaches 2, not 1. -/
theorem c5_replan_counterexample :
    ((((mkAutomaton tickWorld tickSensors tickGoal).senseI).planI.actI).senseI).worldState =
      ((mkAutomaton tickWorld tickSensors tickGoal).senseI).worldState ∧
    (((((mkAutomaton tickWorld tickSensors tickGoal).senseI).planI.actI).senseI).planI).planCallAttempts = 2 ∧
    ¬ (((((mkAutomaton tickWorld tickSensors tickGoal).senseI).planI.actI).senseI).planI).planCallAttempts = 1 :=
  ⟨rfl, rfl, by decide⟩

/-- C5 amended: the SENSING to PLANNING transition unconditionally executes
the planner-call output on every plan input — there is no goal-change,
state-change or missing-plan guard and no plan reuse; the call as written
passes two arguments to the one-parameter find_plan, so it raises
TypeError and the stored plan is left unchanged. -/
theorem c5_amended_unconditional_replan (a : Automaton)
    (h : a.state = AState.sensing) :
    a.planI.state = AState.planning ∧
    a.planI.planCallAttempts = a.planCallAttempts + 1 ∧
    a.planI.actionPlan = a.actionPlan ∧
    a.planI.raised = some PyErr.typeError := by
  simp [Automaton.planI, h]

/-- C5 witness: the amended claim applied to the automaton after its first
sense input. -/
theorem c5_amended_unconditional_replan_witness :
    ((mkAutomaton tickWorld tickSensors tickGoal).senseI).planI.state = AState.planning ∧
    ((mkAutomaton tickWorld tickSensors tickGoal).senseI).planI.planCallAttempts =
      ((mkAutomaton tickWorld tickSensors tickGoal).senseI).planCallAttempts + 1 ∧
    ((mkAutomaton tickWorld tickSensors tickGoal).senseI).planI.actionPlan =
      ((mkAutomaton tickWorld tickSensors tickGoal).senseI).actionPlan ∧
    ((mkAutomaton tickWorld tickSensors tickGoal).senseI).planI.raised =
      some PyErr.typeError :=
  c5_amended_unconditional_replan
    ((mkAutomaton tickWorld tickSensors tickGoal).senseI) rfl

/-- C6: reference chaining.  On Scenario B (reg_examples/example2.py) the
returned plan binds the same concrete value "abracadabra" in the services
of ChantIncantation, CastSpell and PerformMagic, with both service
providers scheduled before PerformMagic. -/
theorem c6_reference_chain_eval :
    findPlan 50 spookyWorld scenarioBActions spookyGoal =
      .ok [⟨chantIncantation, [("chant_incantation", .pystr "abracadabra")]⟩,
           ⟨castSpell, [("cast_spell", .pystr "abracadabra")]⟩,
           ⟨performMagic, [("performs_magic", .pystr "abracadabra")]⟩,
           ⟨becomeUndead, []⟩,
           ⟨hauntWithMagic, []⟩] := rfl

/-- The shared precondition/effect action of the C7 instance: key k is
demanded at 1 by the precondition and written to 2 by the effect. -/
def sharedKeyAction : RAction :=
  { name := "SharedKey",
    effects := [("k", .pyint 2)],
    preconditions := [("k", .lit (.pyint 1))] }

/-- C7 counterexample: applying SharedKey backwards with world k=0 yields a
child whose current-state entry for k is the world value 0, not the
precondition demand 1 as the claim states. -/
theorem c7_shared_key_counterexample :
    (applyActionT ⟨[("k", PyVal.pyint 0)], [sharedKeyAction]⟩
        ⟨[("k", PyVal.pyint 0)], [("k", PyVal.pyint 2)], none⟩
        sharedKeyAction).1 =
      .ok ⟨[("k", PyVal.pyint 0)], [("k", PyVal.pyint 1)],
           some sharedKeyAction⟩ ∧
    pget ([("k", PyVal.pyint 0)] : PyDict String PyVal) "k" ≠
      some (PyVal.pyint 1) :=
  ⟨rfl, by simp [pget]⟩

/-- C7 amended: for an action with k both a literal-valued effect key and a
literal precondition with demand d, apply_action writes d into the child's
goal state and seeds the child's current-state entry for k from the world
state (NOT_DEFINED when absent); neither the effect literal nor the demand
is written to the child's current state. -/
theorem c7_amended_shared_key (env : PEnv) (n : RNode) (a : RAction)
    (k : String) (d ev : PyVal) (child : RNode)
    (hnd : (pkeys a.preconditions).Nodup)
    (hpre : (k, PreVal.lit d) ∈ a.preconditions)
    (heff : pget a.effects k = some ev) (hev : ev ≠ PyVal.ellipsis)
    (hok : (applyActionT env n a).1 = .ok child) :
    pget child.goal k = some d ∧
    pget child.current k = some (pgetD env.world k PyVal.notDefined) := by
  simp only [applyActionT] at hok
  rcases h1 : effLoopT env a n a.effects n.current with ⟨r1, e1⟩
  have g1 := effLoopT_good env a n a.effects n.current
  rw [h1] at hok g1
  dsimp only at g1
  cases r1 with
  | error e => dsimp only at hok; simp at hok
  | ok cur =>
    dsimp only at hok
    rcases h2 : preLoopT e1 a.preconditions cur n.goal with ⟨r2, e2⟩
    rw [h2] at hok
    cases r2 with
    | error e => dsimp only at hok; simp at hok
    | ok cg =>
      dsimp only at hok
      injection hok with hchild
      have hmem := preLoopT_pget_mem e1 k d a.preconditions cur n.goal cg
        hnd hpre (by rw [h2])
      rw [← hchild]
      have he1 : e1 = env := g1.1
      rw [he1] at hmem
      exact ⟨hmem.1, hmem.2⟩

/-- C7 witness: the amended claim at the concrete SharedKey instance. -/
theorem c7_amended_shared_key_witness :
    pget ((RNode.mk [("k", PyVal.pyint 0)] [("k", PyVal.pyint 1)]
        (some sharedKeyAction)).goal) "k" = some (PyVal.pyint 1) ∧
    pget ((RNode.mk [("k", PyVal.pyint 0)] [("k", PyVal.pyint 1)]
        (some sharedKeyAction)).current) "k" =
      some (pgetD [("k", PyVal.pyint 0)] "k" PyVal.notDefined) :=
  c7_amended_shared_key ⟨[("k", PyVal.pyint 0)], [sharedKeyAction]⟩
    ⟨[("k", PyVal.pyint 0)], [("k", PyVal.pyint 2)], none⟩
    sharedKeyAction "k" (PyVal.pyint 1) (PyVal.pyint 2)
    ⟨[("k", PyVal.pyint 0)], [("k", PyVal.pyint 1)], some sharedKeyAction⟩
    (by decide) (by decide) rfl (by decide) rfl

/-- C8: re-parenting is broken.  On the four-vertex instance, vertex 1 sits
in the open set with g=10 when it is reached again from vertex 2 with the
strictly better g=3; find_path updates parents and scores and then calls
PriorityQueue.add on the already-open vertex, which raises ValueError — the
search does not continue, and the failure is not the open-set-empty
PathNotFoundException. -/
theorem c8_reparent_valueerror_eval :
    findPath reparentParams 10 0 = .error .valueError ∧
    (Except.error PyErr.valueError : Except PyErr (List Nat)) ≠
      Except.error PyErr.pathNotFound :=
  ⟨rfl, by simp⟩

/-- C9: declaration-time validation.  A precondition valued by the service
sentinel, or by a reference naming a key absent from the same action's
effects, makes the class declaration fail; on success, service_names is
exactly the set of effect keys whose value is the sentinel. -/
theorem c9_declaration_validation :
    (∀ d : ActionDecl,
        (∃ k, (k, PreVal.lit PyVal.ellipsis) ∈ d.preconditions) →
        isErr (declareAction d) = true) ∧
    (∀ d : ActionDecl,
        (∃ k rn, (k, PreVal.ref rn) ∈ d.preconditions ∧
          pget d.effects rn = none) →
        isErr (declareAction d) = true) ∧
    (∀ (d : ActionDecl) (a : RAction), declareAction d = .ok a →
        a.serviceNames =
          (d.effects.filter (fun kv => kv.2 = PyVal.ellipsis)).map Prod.fst ∧
        (∀ k, k ∈ a.serviceNames ↔
          ∃ v, (k, v) ∈ d.effects ∧ v = PyVal.ellipsis)) := by
  refine ⟨?_, ?_, ?_⟩
  · intro d h
    exact declareAction_isError_of_validate d
      (validate_mem_service_error d.effects d.preconditions h)
  · intro d h
    exact declareAction_isError_of_validate d
      (validate_mem_badref_error d.effects d.preconditions h)
  · intro d a hok
    simp only [declareAction] at hok
    cases hv : validatePreconditions d.effects d.preconditions with
    | error e => rw [hv] at hok; simp at hok
    | ok u =>
      rw [hv] at hok
      dsimp only at hok
      injection hok with ha
      have heff : a.effects = d.effects := by rw [← ha]
      constructor
      · rw [RAction.serviceNames, heff]
      · intro k
        constructor
        · intro hk
          rw [RAction.serviceNames, heff] at hk
          obtain ⟨x, hx, hxk⟩ := List.mem_map.mp hk
          have hx' := List.mem_filter.mp hx
          refine ⟨x.2, ?_, by simpa using hx'.2⟩
          rw [← hxk]
          exact hx'.1
        · intro hk
          obtain ⟨v, hmem, hv'⟩ := hk
          rw [RAction.serviceNames, heff]
          exact List.mem_map.mpr
            ⟨(k, v), List.mem_filter.mpr ⟨hmem, by simp [hv']⟩, rfl⟩

/-- C9 witness: a service-valued precondition and a dangling reference each
abort declaration; ChantIncantation declares successfully with
service_names = [chant_incantation]. -/
theorem c9_declaration_validation_witness :
    isErr (declareAction ⟨"BadService", [], [("x", .lit .ellipsis)], 1, 0⟩) = true ∧
    isErr (declareAction
      ⟨"BadRef", [("y", .pyint 1)], [("x", .ref "z")], 1, 0⟩) = true ∧
    chantIncantation.serviceNames = ["chant_incantation"] :=
  ⟨c9_declaration_validation.1 ⟨"BadService", [], [("x", .lit .ellipsis)], 1, 0⟩
      ⟨"x", by decide⟩,
   c9_declaration_validation.2.1
      ⟨"BadRef", [("y", .pyint 1)], [("x", .ref "z")], 1, 0⟩
      ⟨"x", "z", by decide, rfl⟩,
   ((c9_declaration_validation.2.2
      ⟨"ChantIncantation", [("chant_incantation", .ellipsis)], [], 1, 0⟩
      chantIncantation rfl).1).trans rfl⟩

/-- C10: planning is read-only.  find_plan returns the planner's
world_state mapping and registered action list unchanged, whether it
produces a plan or fails: the environment threaded through every search
operation comes back equal to the input. -/
theorem c10_find_plan_frame :
    ∀ (fuel : Nat) (world : PyDict String PyVal) (actions : List RAction)
      (goalState : PyDict String PyVal),
      (findPlanT fuel ⟨world, actions⟩ goalState).2 = ⟨world, actions⟩ :=
  fun fuel world actions gs => (findPlanT_good fuel ⟨world, actions⟩ gs).1

end Goap

